import Mathlib

/-!
Verification development for the QA_TESTS repository (`backend/app.py` and
`backend/web_app.py`): a generate → extract → persist → test → retry loop
around a language-model completion endpoint.

The Python sources are shallowly embedded below.  Text is modelled as
`List Char` (the sources only ever handle ASCII here), the filesystem as an
association list from file names to contents, the model endpoint and the
external test runner as explicit oracles, and Python exceptions as an
explicit `Except` error channel.  The regular-expression extraction in
`save_code_and_tests` is embedded by dedicated scanners whose behaviour
follows the concrete patterns of the source (leftmost scanning,
non-overlapping `findall`, non-greedy captures, deterministic maximal-munch
for the `\s+`, `\w+` and `[^)]*` pieces, whose character classes are
pairwise disjoint with their followers, so no other backtracking path can
succeed).
-/

set_option maxRecDepth 10000

abbrev Text := List Char

/-- Python `\s` / `str.strip` whitespace (ASCII range, as used by the repo). -/
def isSpaceChar (c : Char) : Bool :=
  c == ' ' || c == '\t' || c == '\n' || c == '\r' || c == '\x0b' || c == '\x0c'

/-- Python `\w` word characters (ASCII range, as used by the repo). -/
def isWordChar (c : Char) : Bool :=
  ('a' ≤ c && c ≤ 'z') || ('A' ≤ c && c ≤ 'Z') || ('0' ≤ c && c ≤ '9') || c == '_'

/-- Python `str.strip()`. -/
def stripChars (s : Text) : Text :=
  ((s.dropWhile isSpaceChar).reverse.dropWhile isSpaceChar).reverse

/-- Python `sep.join(l)`. -/
def joinSep (sep : Text) : List Text → Text
  | [] => []
  | [x] => x
  | x :: y :: r => x ++ sep ++ joinSep sep (y :: r)

def nl : Text := "\n".toList
def nl2 : Text := "\n\n".toList

/-! ### Filesystem model -/

/-- The filesystem: an association list from file names to contents. -/
abbrev Fs := List (Text × Text)

def fsWrite (fs : Fs) (name content : Text) : Fs :=
  (name, content) :: fs.filter (fun e => e.1 ≠ name)

def fsRead (fs : Fs) (name : Text) : Option Text :=
  (fs.find? (fun e => e.1 = name)).map (·.2)

def fsExists (fs : Fs) (name : Text) : Bool :=
  fs.any (fun e => e.1 = name)

def fsRemove (fs : Fs) (name : Text) : Fs :=
  fs.filter (fun e => e.1 ≠ name)

/-! ### Code block scanners

Embedding of the regular expressions of `save_code_and_tests` (identical in
`app.py` lines 19–59 and `web_app.py` lines 422–459):

* fenced blocks: ``` ```(?:python)?\n(.*?)``` ``` with `re.DOTALL`,
* tagged blocks: `\[PYTHON\](.*?)\[/PYTHON\]` with `re.DOTALL`,
* `func_pattern = (def\s+(?!test_)\w+\([^)]*\):.*?)(?=def\s+test_|\Z)`,
* `test_pattern = (def\s+test_\w+\([^)]*\):.*?)(?=def\s+|\Z)`.
-/

/-- Split a list at the earliest suffix satisfying `bd` (the target of a
non-greedy `.*?` bounded by a lookahead); if no suffix satisfies it, the
whole list is taken (the `\Z` alternative of the lookahead). -/
def splitUntil (bd : Text → Bool) : Text → (Text × Text)
  | [] => ([], [])
  | s@(c :: tail) =>
    if bd s then ([], s)
    else
      let (t, r) := splitUntil bd tail
      (c :: t, r)

/-- Earliest closing ```` ``` ```` fence: returns the capture before it and
the rest after it. -/
def findCloseFence : Text → Option (Text × Text)
  | [] => none
  | s@(c :: tail) =>
    if "```".toList.isPrefixOf s then some ([], s.drop 3)
    else
      match findCloseFence tail with
      | some (cap, rest) => some (c :: cap, rest)
      | none => none

/-- Earliest closing `[/PYTHON]` tag. -/
def findCloseTag : Text → Option (Text × Text)
  | [] => none
  | s@(c :: tail) =>
    if "[/PYTHON]".toList.isPrefixOf s then some ([], s.drop 9)
    else
      match findCloseTag tail with
      | some (cap, rest) => some (c :: cap, rest)
      | none => none

/-- One match attempt of the fenced-block pattern at the current position.
`(?:python)?` is greedy; since a capture search only fails when no closing
fence exists at all — in which case the shorter alternative (requiring `\n`
where `python` stood) fails as well — the two prefix tests below are
exhaustive. -/
def matchFencedAt (s : Text) : Option (Text × Text) :=
  if "```python\n".toList.isPrefixOf s then findCloseFence (s.drop 10)
  else if "```\n".toList.isPrefixOf s then findCloseFence (s.drop 4)
  else none

/-- One match attempt of the `[PYTHON]` pattern at the current position. -/
def matchTaggedAt (s : Text) : Option (Text × Text) :=
  if "[PYTHON]".toList.isPrefixOf s then findCloseTag (s.drop 8)
  else none

/-- `re.findall` driver: try a match at every position, left to right,
continuing after the end of each match.  All matchers used produce
non-empty matches, so `s.length` fuel always suffices. -/
def scanGenAux (m : Text → Option (Text × Text)) : Nat → Text → List Text
  | 0, _ => []
  | _ + 1, [] => []
  | fuel + 1, s@(_ :: tail) =>
    match m s with
    | some (cap, rest) => cap :: scanGenAux m fuel rest
    | none => scanGenAux m fuel tail

def scanWith (m : Text → Option (Text × Text)) (s : Text) : List Text :=
  scanGenAux m s.length s

def scanFenced (s : Text) : List Text := scanWith matchFencedAt s

def scanTagged (s : Text) : List Text := scanWith matchTaggedAt s

/-- The character class `[^)]`. -/
def notParen (c : Char) : Bool := c != ')'

/-- Head of a definition pattern: `def\s+test_\w+\([^)]*\):` when
`needTest`, else `def\s+(?!test_)\w+\([^)]*\):`.  Returns the matched head
and the rest.  Each quantified piece is forced: `\s+` is a maximal
whitespace run (its follower is a word character), `\w+` a maximal word run
(its follower is `(`), `[^)]*` everything before the first `)`. -/
def parseDefHead (needTest : Bool) (s : Text) : Option (Text × Text) :=
  if "def".toList.isPrefixOf s then
    let s1 := s.drop 3
    let ws := s1.takeWhile isSpaceChar
    let s2 := s1.dropWhile isSpaceChar
    if ws.isEmpty then none
    else if needTest then
      if "test_".toList.isPrefixOf s2 then
        let s3 := s2.drop 5
        let w := s3.takeWhile isWordChar
        let s4 := s3.dropWhile isWordChar
        if w.isEmpty then none
        else
          match s4 with
          | '(' :: s5 =>
            let params := s5.takeWhile notParen
            match s5.dropWhile notParen with
            | ')' :: ':' :: s6 =>
              some ("def".toList ++ ws ++ "test_".toList ++ w ++ '(' :: params ++ [')', ':'], s6)
            | _ => none
          | _ => none
      else none
    else
      if "test_".toList.isPrefixOf s2 then none
      else
        let w := s2.takeWhile isWordChar
        let s4 := s2.dropWhile isWordChar
        if w.isEmpty then none
        else
          match s4 with
          | '(' :: s5 =>
            let params := s5.takeWhile notParen
            match s5.dropWhile notParen with
            | ')' :: ':' :: s6 =>
              some ("def".toList ++ ws ++ w ++ '(' :: params ++ [')', ':'], s6)
            | _ => none
          | _ => none
  else none

/-- Lookahead `(?=def\s+test_)`: matchable iff `def`, then the (maximal,
since `t` is not whitespace) whitespace run, then `test_`. -/
def boundaryFuncEnd (s : Text) : Bool :=
  "def".toList.isPrefixOf s &&
    (let s1 := s.drop 3
     !(s1.takeWhile isSpaceChar).isEmpty && "test_".toList.isPrefixOf (s1.dropWhile isSpaceChar))

/-- Lookahead `(?=def\s+)`: matchable iff `def` followed by at least one
whitespace character. -/
def boundaryAnyEnd (s : Text) : Bool :=
  "def".toList.isPrefixOf s &&
    match s.drop 3 with
    | c :: _ => isSpaceChar c
    | [] => false

/-- Common shape of the two definition patterns: a head match followed by a
non-greedy body bounded by the given lookahead. -/
def matchDefAt (needTest : Bool) (bd : Text → Bool) (s : Text) : Option (Text × Text) :=
  match parseDefHead needTest s with
  | none => none
  | some (head, rest) =>
    some (head ++ (splitUntil bd rest).1, (splitUntil bd rest).2)

/-- One match attempt of `func_pattern` at the current position. -/
def matchFuncAt (s : Text) : Option (Text × Text) :=
  matchDefAt false boundaryFuncEnd s

/-- One match attempt of `test_pattern` at the current position. -/
def matchTestAt (s : Text) : Option (Text × Text) :=
  matchDefAt true boundaryAnyEnd s

def scanFunc (s : Text) : List Text := scanWith matchFuncAt s

def scanTest (s : Text) : List Text := scanWith matchTestAt s

/-! ### The extraction pipeline shared by both `save_code_and_tests` -/

/-- The `code_blocks` list: stripped fenced blocks, then stripped tagged
blocks. -/
def codeBlocksOf (response : Text) : List Text :=
  (scanFenced response).map stripChars ++ (scanTagged response).map stripChars

/-- `combined_code = "\n\n".join(code_blocks)`. -/
def combinedCodeOf (response : Text) : Text :=
  joinSep nl2 (codeBlocksOf response)

/-- The extraction core of `save_code_and_tests` (identical in both
sources): `none` when no code block, no non-test definition, or no test
definition is found; otherwise the two joined, re-stripped groups. -/
def extractCode (response : Text) : Option (Text × Text) :=
  let blocks := codeBlocksOf response
  if blocks.isEmpty then none
  else
    let combined := combinedCodeOf response
    let funcs := scanFunc combined
    let tests := scanTest combined
    if funcs.isEmpty then none
    else if tests.isEmpty then none
    else some (joinSep nl2 (funcs.map stripChars), joinSep nl2 (tests.map stripChars))

/-! ### Model client (`generate_task`, app.py lines 5–17 / web_app.py 15–27)

The request payload built by the source has exactly the keys `model`,
`prompt`, `stream`; the `temperature` parameter is accepted but not used
anywhere in the body.  Python floats are never inspected, so the
temperature is modelled by an arbitrary type.  The `try` body can fail in
three ways (connection error, `raise_for_status`, missing `response` key);
all are caught by `except Exception` and encoded as text, so the transport
oracle has one success case and one exception case carrying the exception
text. -/

structure Payload where
  model : Text
  prompt : Text
  stream : Bool
deriving DecidableEq, Repr

inductive Transport where
  /-- the POST returned 2xx JSON containing a `response` field -/
  | ok (reply : Text)
  /-- any exception raised inside the `try` body, rendered as text -/
  | exc (details : Text)
deriving DecidableEq, Repr

def defaultModel : Text := "codellama:7b-instruct".toList

def requestPayload (prompt model : Text) : Payload :=
  { model := model, prompt := prompt, stream := false }

def connectErrHead : Text :=
  "Error: Unable to connect to the model server or generate a response.\nDetails: ".toList

/-- `generate_task`, instrumented with the payload it sends.  The function
itself never raises: every exception is converted to the error text. -/
def generate_task {α : Type} (prompt model : Text) (temperature : α) (tr : Transport) :
    Payload × Text :=
  (requestPayload prompt model,
   match tr with
   | .ok reply => reply
   | .exc details => connectErrHead ++ details)

/-- The reply actually seen by the orchestrators (they call `generate_task`
with the default model and temperature). -/
def replyOf (prompt : Text) (tr : Transport) : Text :=
  (generate_task prompt defaultModel () tr).2

/-! ### Prompt templates -/

/-- The enhanced initial prompt (web_app.py lines 334–352; identical text in
app.py lines 141–159). -/
def fullPrompt (prompt : Text) : Text :=
  "Write a clean Python function for this task: ".toList ++ prompt ++
  "\n\nInclude comprehensive tests that cover:\n- Normal cases\n- Edge cases (empty inputs, zero, negative numbers, None, etc.)\n- Boundary conditions\n- Error handling if needed\n\nPlease provide BOTH the function and its tests in a SINGLE code block like this:\n\n```python\ndef function_name(args):\n    # your function implementation with error handling\n    return result\n\ndef test_function_name():\n    # pytest test cases covering all scenarios\n    assert function_name(test_input) == expected_output\n    assert function_name(edge_case) == expected_output\n```\n\nImportant: Put EVERYTHING in ONE code block. Include comprehensive test cases using pytest assertions.".toList

def fixSegA : Text := "The following code was generated for the task: \x27".toList
def fixSegB : Text := "\x27\n\nPrevious code:\n".toList
def fixSegC : Text := "\n\nBut the tests failed with this error:\n".toList
def fixSegD : Text :=
  "\n\nPlease fix the code and provide BOTH the corrected function and its tests in a SINGLE code block:\n\n```python\ndef function_name(args):\n    # your corrected implementation\n    return result\n\ndef test_function_name():\n    # pytest test cases\n    assert function_name(test_input) == expected_output\n```\n\nImportant: Fix the issue and put EVERYTHING in ONE code block.".toList

/-- The fix-up prompt built by `fix_failing_code` (app.py lines 88–105 /
web_app.py 487–504). -/
def fixPrompt (original_prompt error_output previous_code : Text) : Text :=
  fixSegA ++ original_prompt ++ fixSegB ++ previous_code ++ fixSegC ++ error_output ++ fixSegD

/-! ### Session files and persistence (web_app.py lines 461–472, 506–518) -/

def funcFileName (session_id : Text) : Text :=
  "generated_code_".toList ++ session_id ++ ".py".toList

def testFileName (session_id : Text) : Text :=
  "test_generated_code_".toList ++ session_id ++ ".py".toList

/-- The header prepended to the session test file: the testing-library
and wildcard session-module imports. -/
def testHeader (session_id : Text) : Text :=
  List.append "import pytest\nfrom generated_code_".toList
    (session_id ++ " import *\n\n".toList)

/-- The two file writes performed by the web `save_code_and_tests` once
extraction has succeeded. -/
def persistArtifacts (session_id func_code test_code : Text) (fs : Fs) : Fs :=
  fsWrite (fsWrite fs (funcFileName session_id) (func_code ++ nl))
    (testFileName session_id) (testHeader session_id ++ test_code ++ nl)

structure SaveOut where
  ok : Bool
  func_code : Text
  test_code : Text
deriving DecidableEq, Repr

/-- `save_code_and_tests` (web_app.py lines 422–472). -/
def save_code_and_tests (response session_id : Text) (fs : Fs) : SaveOut × Fs :=
  match extractCode response with
  | none => (⟨false, [], []⟩, fs)
  | some (f, t) => (⟨true, f, t⟩, persistArtifacts session_id f t fs)

/-- `cleanup_session_files` (web_app.py lines 506–518): removes both session
files; a missing file is skipped and removal errors are swallowed. -/
def cleanup_session_files (session_id : Text) (fs : Fs) : Fs :=
  fsRemove (fsRemove fs (funcFileName session_id)) (testFileName session_id)

/-! ### Test executor -/

/-- Outcome of invoking `subprocess.run(["pytest", ...])`: either the
executable is missing (`FileNotFoundError` raised at the call), or the
process ran and produced an exit status and captured streams. -/
inductive RunnerOutcome where
  | unavailable
  | ran (returncode : Int) (stdout stderr : Text)
deriving DecidableEq, Repr

/-- Python exceptions that escape functions in this repository. -/
inductive PyErr where
  | fileNotFound
  | unboundLocal
deriving DecidableEq, Repr

/-- The pytest command line of web_app.py line 477 (app.py line 75 is
identical up to the file name). -/
def pytestCmd (session_id : Text) : List Text :=
  ["pytest".toList, testFileName session_id, "-v".toList, "--maxfail=1".toList,
   "--disable-warnings".toList]

/-- `run_tests` (web_app.py lines 474–485), instrumented with the command it
invokes.  A missing runner raises; a completed run never does. -/
def run_tests (session_id : Text) (ro : RunnerOutcome) :
    List Text × Except PyErr (Bool × Text) :=
  (pytestCmd session_id,
   match ro with
   | .unavailable => .error .fileNotFound
   | .ran rc out err => if rc = 0 then .ok (true, out) else .ok (false, out ++ nl ++ err))

/-- `run_tests` of app.py lines 72–86: returns `(True, None)` on success and
`(False, stderr)` on failure. -/
def app_run_tests (ro : RunnerOutcome) : Except PyErr (Bool × Option Text) :=
  match ro with
  | .unavailable => .error .fileNotFound
  | .ran rc _ err => if rc = 0 then .ok (true, none) else .ok (false, some err)

/-! ### The web orchestrator (`generate`, web_app.py lines 323–420) -/

structure Attempt where
  attempt : Nat
  ai_response : Text
  success : Bool
  func_code : Text
  test_code : Text
  test_output : Text
  error : Text
deriving DecidableEq, Repr

structure GenResult where
  success : Bool
  attempts : List Attempt
  final_func_code : Option Text := none
  final_test_code : Option Text := none
  test_output : Option Text := none
  error : Option Text := none
deriving DecidableEq, Repr

/-- State threaded through the retry loop.  `lastError` models the Python
local `last_error` (`none` = not yet assigned); `prompts` records every
prompt passed to `generate_task`, in order; `runs` counts `run_tests`
invocations. -/
structure LoopSt where
  fs : Fs
  lastError : Option Text
  attempts : List Attempt
  prompts : List Text
  runs : Nat
deriving DecidableEq, Repr

def initSt (fs : Fs) : LoopSt :=
  { fs := fs, lastError := none, attempts := [], prompts := [], runs := 0 }

def parseFailAttemptMsg : Text := "Failed to parse code blocks from AI response".toList
def parseFailMsg : Text := "Failed to parse code blocks".toList
def exhaustedMsg : Text := "Failed after 3 attempts".toList

def successResult (atts : List Attempt) (func_code test_code output : Text) : GenResult :=
  { success := true, attempts := atts, final_func_code := some func_code,
    final_test_code := some test_code, test_output := some output }

def exhaustResult (atts : List Attempt) (msg : Text) : GenResult :=
  { success := false, attempts := atts, error := some msg }

/-- The prompt computed at the top of one loop iteration (web_app.py lines
358–370).  Reading the persisted file or the unassigned local can raise. -/
def iterPrompt (origPrompt session_id : Text) (attempt : Nat) (st : LoopSt) :
    Except PyErr Text :=
  if attempt = 0 then .ok (fullPrompt origPrompt)
  else if fsExists st.fs (funcFileName session_id) then
    match fsRead st.fs (funcFileName session_id) with
    | none => .error .fileNotFound
    | some previous_code =>
      match st.lastError with
      | none => .error .unboundLocal
      | some le => .ok (fixPrompt origPrompt le previous_code)
  else .ok (fullPrompt origPrompt)

inductive IterOut where
  | exit (res : Except PyErr GenResult) (st : LoopSt)
  | next (st : LoopSt)
deriving Repr

/-- One iteration of the web retry loop (web_app.py lines 358–411). -/
def genIter (origPrompt session_id : Text) (tr : Nat → Transport)
    (rn : Nat → RunnerOutcome) (attempt : Nat) (st : LoopSt) : IterOut :=
  match iterPrompt origPrompt session_id attempt st with
  | .error e => .exit (.error e) st
  | .ok p =>
    let result := replyOf p (tr st.prompts.length)
    let st1 : LoopSt := { st with prompts := st.prompts ++ [p] }
    let sv := save_code_and_tests result session_id st1.fs
    let st2 : LoopSt := { st1 with fs := sv.2 }
    let base : Attempt :=
      { attempt := attempt + 1, ai_response := result, success := false,
        func_code := sv.1.func_code, test_code := sv.1.test_code,
        test_output := [], error := [] }
    if sv.1.ok then
      match rn st2.runs with
      | .unavailable => .exit (.error .fileNotFound) st2
      | .ran rc out err =>
        let st3 : LoopSt := { st2 with runs := st2.runs + 1 }
        let output := if rc = 0 then out else out ++ nl ++ err
        if rc = 0 then
          let ad : Attempt := { base with success := true, test_output := output }
          let st4 : LoopSt :=
            { st3 with attempts := st3.attempts ++ [ad],
                       fs := cleanup_session_files session_id st3.fs }
          .exit (.ok (successResult st4.attempts sv.1.func_code sv.1.test_code output)) st4
        else
          let ad : Attempt := { base with test_output := output, error := output }
          .next { st3 with attempts := st3.attempts ++ [ad], lastError := some output }
    else
      let ad : Attempt := { base with error := parseFailAttemptMsg }
      .next { st2 with attempts := st2.attempts ++ [ad], lastError := some parseFailMsg }

/-- The `for attempt in range(max_retries)` loop plus the fall-through exit
(web_app.py lines 354–420).  `rem` is the number of iterations left. -/
def genLoop (origPrompt session_id : Text) (tr : Nat → Transport)
    (rn : Nat → RunnerOutcome) (msg : Text) :
    Nat → Nat → LoopSt → Except PyErr GenResult × LoopSt
  | _, 0, st =>
    let st' : LoopSt := { st with fs := cleanup_session_files session_id st.fs }
    (.ok (exhaustResult st'.attempts msg), st')
  | attempt, rem + 1, st =>
    match genIter origPrompt session_id tr rn attempt st with
    | .exit res st' => (res, st')
    | .next st' => genLoop origPrompt session_id tr rn msg (attempt + 1) rem st'

inductive WebResp where
  /-- the `('error': ..., 400)` path for a missing prompt -/
  | badRequest
  | page (r : GenResult)
deriving Repr

/-- The `/generate` handler (web_app.py lines 323–420), with `max_retries`
fixed at 3 as in the source. -/
def generate (origPrompt session_id : Text) (tr : Nat → Transport)
    (rn : Nat → RunnerOutcome) (fs0 : Fs) : Except PyErr WebResp × LoopSt :=
  if origPrompt = [] then (.ok .badRequest, initSt fs0)
  else
    let r := genLoop origPrompt session_id tr rn exhaustedMsg 0 3 (initSt fs0)
    (r.1.map .page, r.2)

/-! ### The CLI orchestrator (`run_with_retry`, app.py lines 107–137)

`last_error` is assigned inside the function body (line 130), which makes it
a function local throughout; reading it on a retry before any test failure
raises `UnboundLocalError`.  The retry branch also opens
`generated_code.py` unconditionally, which raises `FileNotFoundError` when
no previous attempt persisted it. -/

def appFuncFile : Text := "generated_code.py".toList
def appTestFile : Text := "test_generated_code.py".toList
def appTestHeader : Text := "import pytest\nfrom generated_code import *\n\n".toList

/-- `save_code_and_tests` of app.py lines 19–70 (fixed file names, boolean
result). -/
def app_save_code_and_tests (response : Text) (fs : Fs) : Bool × Fs :=
  match extractCode response with
  | none => (false, fs)
  | some (f, t) =>
    (true, fsWrite (fsWrite fs appFuncFile (f ++ nl)) appTestFile
      (appTestHeader ++ t ++ nl))

structure AppSt where
  fs : Fs
  lastError : Option Text
  calls : Nat
  runs : Nat
deriving DecidableEq, Repr

/-- `run_with_retry` (app.py lines 107–137).  `fullP` is the module-level
`full_prompt` read from the enclosing scope. -/
def run_with_retry (origPrompt fullP : Text) (tr : Nat → Transport)
    (rn : Nat → RunnerOutcome) :
    Nat → Nat → AppSt → Except PyErr Bool × AppSt
  | _, 0, st => (.ok false, st)
  | attempt, rem + 1, st =>
    let pRes : Except PyErr Text :=
      if attempt = 0 then .ok fullP
      else
        match fsRead st.fs appFuncFile with
        | none => .error .fileNotFound
        | some previous_code =>
          match st.lastError with
          | none => .error .unboundLocal
          | some le => .ok (fixPrompt origPrompt le previous_code)
    match pRes with
    | .error e => (.error e, st)
    | .ok p =>
      let result := replyOf p (tr st.calls)
      let st1 : AppSt := { st with calls := st.calls + 1 }
      let sv := app_save_code_and_tests result st1.fs
      let st2 : AppSt := { st1 with fs := sv.2 }
      if sv.1 then
        match app_run_tests (rn st2.runs) with
        | .error e => (.error e, { st2 with runs := st2.runs + 1 })
        | .ok (true, _) => (.ok true, { st2 with runs := st2.runs + 1 })
        | .ok (false, errOut) =>
          run_with_retry origPrompt fullP tr rn (attempt + 1) rem
            { st2 with runs := st2.runs + 1,
                       lastError := match errOut with
                                    | some e => some e
                                    | none => st2.lastError }
      else
        run_with_retry origPrompt fullP tr rn (attempt + 1) rem st2

/-! # Supporting lemmas -/

theorem fsRead_write_self (fs : Fs) (n c : Text) :
    fsRead (fsWrite fs n c) n = some c := by
  simp [fsRead, fsWrite, List.find?_cons]

theorem find?_filter_of_imp {α : Type} (l : List α) (p q : α → Bool)
    (h : ∀ a, q a = true → p a = true) :
    (l.filter p).find? q = l.find? q := by
  induction l with
  | nil => rfl
  | cons x xs ih =>
    by_cases hq : q x = true
    · have hp := h x hq
      simp [List.filter_cons, hp, List.find?_cons, hq, ih]
    · simp only [Bool.not_eq_true] at hq
      by_cases hp : p x = true
      · simp [List.filter_cons, hp, List.find?_cons, hq, ih]
      · simp only [Bool.not_eq_true] at hp
        simp [List.filter_cons, hp, List.find?_cons, hq, ih]

theorem fsRead_write_ne (fs : Fs) (n c m : Text) (h : m ≠ n) :
    fsRead (fsWrite fs n c) m = fsRead fs m := by
  simp only [fsRead, fsWrite, List.find?_cons]
  have hd : (decide ((n, c).1 = m)) = false := by
    simp only [decide_eq_false_iff_not]
    exact fun hnm => h hnm.symm
  simp only [hd]
  rw [find?_filter_of_imp]
  intro a ha
  simp only [decide_eq_true_eq] at ha
  simp only [ne_eq, decide_not, Bool.not_eq_true', decide_eq_false_iff_not]
  exact fun hn => h (ha.symm.trans hn)

theorem fsRead_remove_ne (fs : Fs) (n m : Text) (h : m ≠ n) :
    fsRead (fsRemove fs n) m = fsRead fs m := by
  simp only [fsRead, fsRemove]
  rw [find?_filter_of_imp]
  intro a ha
  simp only [decide_eq_true_eq] at ha
  simp only [ne_eq, decide_not, Bool.not_eq_true', decide_eq_false_iff_not]
  exact fun hn => h (ha.symm.trans hn)

theorem fsExists_eq_isSome (fs : Fs) (n : Text) :
    fsExists fs n = (fsRead fs n).isSome := by
  induction fs with
  | nil => rfl
  | cons x xs ih =>
    by_cases h : x.1 = n
    · simp [fsExists, fsRead, List.any_cons, List.find?_cons, h]
    · simp [fsExists, fsRead, List.any_cons, List.find?_cons, h] at ih ⊢
      exact ih

theorem fsExists_remove_self (fs : Fs) (n : Text) :
    fsExists (fsRemove fs n) n = false := by
  induction fs with
  | nil => rfl
  | cons x xs ih =>
    by_cases h : x.1 = n
    · simpa [fsRemove, List.filter_cons, h] using ih
    · simpa [fsRemove, fsExists, List.filter_cons, h, List.any_cons] using ih

theorem fsExists_remove_ne (fs : Fs) (n m : Text) (h : m ≠ n) :
    fsExists (fsRemove fs n) m = fsExists fs m := by
  rw [fsExists_eq_isSome, fsExists_eq_isSome, fsRead_remove_ne fs n m h]

theorem funcFileName_ne_testFileName (sid : Text) :
    funcFileName sid ≠ testFileName sid := by
  intro h
  have h2 : (funcFileName sid).head? = (testFileName sid).head? := by rw [h]
  have h3 : (funcFileName sid).head? = some 'g' := rfl
  have h4 : (testFileName sid).head? = some 't' := rfl
  rw [h3, h4] at h2
  exact absurd h2 (by decide)

/-- After `cleanup_session_files`, neither session file exists. -/
theorem cleanup_removes_files (sid : Text) (fs : Fs) :
    fsExists (cleanup_session_files sid fs) (funcFileName sid) = false ∧
    fsExists (cleanup_session_files sid fs) (testFileName sid) = false := by
  constructor
  · rw [cleanup_session_files,
      fsExists_remove_ne _ _ _ (funcFileName_ne_testFileName sid)]
    exact fsExists_remove_self _ _
  · exact fsExists_remove_self _ _

/-! ### Shape of scanned definition fragments -/

/-- Checks that a fragment begins with the `def`-token head the
corresponding pattern requires: `def`, at least one whitespace character,
and at the name position the literal `test_` (for the test pattern) or its
absence (for the implementation pattern). -/
def headChk (needTest : Bool) (s : Text) : Bool :=
  "def".toList.isPrefixOf s &&
    (let s1 := s.drop 3
     !(s1.takeWhile isSpaceChar).isEmpty &&
       (if needTest then "test_".toList.isPrefixOf (s1.dropWhile isSpaceChar)
        else !("test_".toList.isPrefixOf (s1.dropWhile isSpaceChar))))

theorem wordChar_not_space (c : Char) (h : isWordChar c = true) : isSpaceChar c = false := by
  by_contra hc
  simp only [Bool.not_eq_false, isSpaceChar, Bool.or_eq_true, beq_iff_eq] at hc
  have hc' : c = ' ' ∨ c = '\t' ∨ c = '\n' ∨ c = '\x0d' ∨ c = '\x0b' ∨ c = '\x0c' := by
    tauto
  rcases hc' with rfl | rfl | rfl | rfl | rfl | rfl <;> exact absurd h (by decide)

theorem takeWhile_append_run {p : Char → Bool} (ws : Text) (c : Char) (r : Text)
    (hws : ∀ x ∈ ws, p x = true) (hc : p c = false) :
    (ws ++ c :: r).takeWhile p = ws ∧ (ws ++ c :: r).dropWhile p = c :: r := by
  induction ws with
  | nil => simp [List.takeWhile_cons, List.dropWhile_cons, hc]
  | cons a t ih =>
    have ha := hws a (by simp)
    have iht := ih (fun x hx => hws x (by simp [hx]))
    simp [List.takeWhile_cons, List.dropWhile_cons, ha, iht.1, iht.2]

theorem splitUntil_append (bd : Text → Bool) (s : Text) :
    (splitUntil bd s).1 ++ (splitUntil bd s).2 = s := by
  induction s with
  | nil => rfl
  | cons c t ih =>
    by_cases h : bd (c :: t) = true
    · simp [splitUntil, h]
    · simp only [splitUntil, h, Bool.false_eq_true, if_false]
      simpa using ih

/-- Everything `parseDefHead` accepts, decomposed.  The name-position
check of the pattern transfers to any prefix of `rest` appended to the
head. -/
theorem parseDefHead_decomp (b : Bool) (s head rest : Text)
    (h : parseDefHead b s = some (head, rest)) :
    ∃ ws nm mid,
      head = 'd' :: 'e' :: 'f' :: (ws ++ nm ++ mid) ∧
      ws ≠ [] ∧ (∀ c ∈ ws, isSpaceChar c = true) ∧
      (∃ c0 t0, nm = c0 :: t0 ∧ isSpaceChar c0 = false) ∧
      (if b then "test_".toList.isPrefixOf nm = true
       else ∀ x, x <+: rest → "test_".toList.isPrefixOf (nm ++ mid ++ x) = false) := by
  simp only [parseDefHead] at h
  by_cases hd : "def".toList.isPrefixOf s = true
  swap
  · rw [if_neg hd] at h
    exact absurd h (by simp)
  rw [if_pos hd] at h
  by_cases hws : ((s.drop 3).takeWhile isSpaceChar).isEmpty = true
  · rw [if_pos hws] at h
    exact absurd h (by simp)
  rw [if_neg hws] at h
  have wsne : (s.drop 3).takeWhile isSpaceChar ≠ [] := by
    intro hn
    exact hws (by simp [hn])
  have wsall : ∀ c ∈ (s.drop 3).takeWhile isSpaceChar, isSpaceChar c = true :=
    fun c hc => List.mem_takeWhile_imp hc
  cases b with
  | true =>
    rw [if_pos rfl] at h
    by_cases ht : "test_".toList.isPrefixOf ((s.drop 3).dropWhile isSpaceChar) = true
    swap
    · rw [if_neg ht] at h
      exact absurd h (by simp)
    rw [if_pos ht] at h
    by_cases hw : ((((s.drop 3).dropWhile isSpaceChar).drop 5).takeWhile isWordChar).isEmpty = true
    · rw [if_pos hw] at h
      exact absurd h (by simp)
    rw [if_neg hw] at h
    split at h
    on_goal 2 => exact absurd h (by simp)
    rename_i s5 heq
    split at h
    on_goal 2 => exact absurd h (by simp)
    rename_i s6 heq2
    simp only [Option.some.injEq, Prod.mk.injEq] at h
    obtain ⟨hhead, hrest⟩ := h
    refine ⟨(s.drop 3).takeWhile isSpaceChar,
      "test_".toList ++ (((s.drop 3).dropWhile isSpaceChar).drop 5).takeWhile isWordChar,
      '(' :: (s5.takeWhile notParen ++ [')', ':']), ?_, wsne, wsall, ?_, ?_⟩
    · rw [← hhead]
      simp
    · exact ⟨'t',
        'e' :: 's' :: 't' :: '_' ::
          (((s.drop 3).dropWhile isSpaceChar).drop 5).takeWhile isWordChar,
        rfl, by decide⟩
    · simp only [if_pos rfl]
      exact List.isPrefixOf_iff_prefix.mpr (List.prefix_append _ _)
  | false =>
    rw [if_neg (by simp)] at h
    by_cases ht : "test_".toList.isPrefixOf ((s.drop 3).dropWhile isSpaceChar) = true
    · rw [if_pos ht] at h
      exact absurd h (by simp)
    rw [if_neg ht] at h
    by_cases hw : (((s.drop 3).dropWhile isSpaceChar).takeWhile isWordChar).isEmpty = true
    · rw [if_pos hw] at h
      exact absurd h (by simp)
    rw [if_neg hw] at h
    split at h
    on_goal 2 => exact absurd h (by simp)
    rename_i s5 heq
    split at h
    on_goal 2 => exact absurd h (by simp)
    rename_i s6 heq2
    simp only [Option.some.injEq, Prod.mk.injEq] at h
    obtain ⟨hhead, hrest⟩ := h
    have hwne : ((s.drop 3).dropWhile isSpaceChar).takeWhile isWordChar ≠ [] := by
      intro hn
      exact hw (by simp [hn])
    obtain ⟨c0, t0, hct⟩ : ∃ c0 t0,
        ((s.drop 3).dropWhile isSpaceChar).takeWhile isWordChar = c0 :: t0 := by
      rcases hcase : ((s.drop 3).dropWhile isSpaceChar).takeWhile isWordChar with _ | ⟨c0, t0⟩
      · exact absurd hcase hwne
      · exact ⟨c0, t0, rfl⟩
    refine ⟨(s.drop 3).takeWhile isSpaceChar,
      ((s.drop 3).dropWhile isSpaceChar).takeWhile isWordChar,
      '(' :: (s5.takeWhile notParen ++ [')', ':']), ?_, wsne, wsall, ?_, ?_⟩
    · rw [← hhead]
      simp
    · refine ⟨c0, t0, hct, ?_⟩
      have hmem : c0 ∈ ((s.drop 3).dropWhile isSpaceChar).takeWhile isWordChar := by
        rw [hct]
        simp
      exact wordChar_not_space c0 (List.mem_takeWhile_imp hmem)
    · rw [if_neg (by simp)]
      intro x hx
      subst hrest
      by_contra hpre
      simp only [Bool.not_eq_false] at hpre
      apply ht
      rw [List.isPrefixOf_iff_prefix] at hpre ⊢
      obtain ⟨y, hy⟩ := hx
      refine hpre.trans ⟨y, ?_⟩
      have e1 := List.takeWhile_append_dropWhile isWordChar ((s.drop 3).dropWhile isSpaceChar)
      rw [heq] at e1
      have e2 := List.takeWhile_append_dropWhile notParen s5
      rw [heq2] at e2
      conv_rhs => rw [← e1, ← e2, ← hy]
      simp

/-- Every accepted match of a definition pattern starts with the head shape
the pattern requires. -/
theorem matchDefAt_headChk (b : Bool) (bd : Text → Bool) (s cap after : Text)
    (h : matchDefAt b bd s = some (cap, after)) :
    headChk b cap = true ∧ ∃ t, cap = 'd' :: 'e' :: 'f' :: t := by
  unfold matchDefAt at h
  rcases hp : parseDefHead b s with _ | ⟨head, rest⟩
  · rw [hp] at h
    exact absurd h (by simp)
  rw [hp] at h
  simp only [Option.some.injEq, Prod.mk.injEq] at h
  obtain ⟨hcap, hafter⟩ := h
  obtain ⟨ws, nm, mid, hhead, hwsne, hwsall, ⟨c0, t0, hnm, hc0⟩, hcheck⟩ :=
    parseDefHead_decomp b s head rest hp
  have hbody : (splitUntil bd rest).1 <+: rest :=
    ⟨(splitUntil bd rest).2, splitUntil_append bd rest⟩
  subst hnm
  have hcap' : cap = 'd' :: 'e' :: 'f' ::
      (ws ++ c0 :: (t0 ++ (mid ++ (splitUntil bd rest).1))) := by
    rw [← hcap, hhead]
    simp
  refine ⟨?_, ⟨_, hcap'⟩⟩
  rw [hcap']
  simp only [headChk, Bool.and_eq_true]
  obtain ⟨htake, hdrop2⟩ :=
    takeWhile_append_run ws c0 (t0 ++ (mid ++ (splitUntil bd rest).1)) hwsall hc0
  have hdrop3 : ('d' :: 'e' :: 'f' ::
      (ws ++ c0 :: (t0 ++ (mid ++ (splitUntil bd rest).1)))).drop 3
      = ws ++ c0 :: (t0 ++ (mid ++ (splitUntil bd rest).1)) := rfl
  refine ⟨?_, ?_⟩
  · rw [List.isPrefixOf_iff_prefix]
    exact ⟨_, rfl⟩
  refine ⟨?_, ?_⟩
  · rw [hdrop3, htake]
    simpa [List.isEmpty_iff] using hwsne
  · rw [hdrop3, hdrop2]
    cases b with
    | true =>
      rw [if_pos rfl]
      rw [if_pos rfl] at hcheck
      rw [List.isPrefixOf_iff_prefix] at hcheck ⊢
      refine hcheck.trans ?_
      rw [← List.cons_append]
      refine (List.prefix_append (c0 :: t0) (mid ++ (splitUntil bd rest).1)).trans ?_
      simp
    | false =>
      rw [if_neg (by simp)]
      rw [if_neg (by simp)] at hcheck
      have hx := hcheck (splitUntil bd rest).1 hbody
      simp only [Bool.not_eq_true']
      simpa [List.append_assoc] using hx

/-- Soundness of the generic `findall` driver. -/
theorem scanGenAux_mem {P : Text → Prop} (m : Text → Option (Text × Text))
    (sound : ∀ s c r, m s = some (c, r) → P c) :
    ∀ fuel s x, x ∈ scanGenAux m fuel s → P x := by
  intro fuel
  induction fuel with
  | zero =>
    intro s x hx
    simp [scanGenAux] at hx
  | succ n ih =>
    intro s x hx
    cases s with
    | nil => simp [scanGenAux] at hx
    | cons c t =>
      rw [scanGenAux] at hx
      rcases hm : m (c :: t) with _ | ⟨cap, rest⟩ <;> rw [hm] at hx
      · exact ih t x hx
      · rcases List.mem_cons.mp hx with rfl | hx'
        · exact sound _ _ _ hm
        · exact ih rest x hx'

theorem scanFunc_headChk (buf m : Text) (hm : m ∈ scanFunc buf) : headChk false m = true :=
  scanGenAux_mem matchFuncAt
    (fun s c r h => (matchDefAt_headChk false boundaryFuncEnd s c r h).1)
    buf.length buf m hm

theorem scanTest_headChk (buf m : Text) (hm : m ∈ scanTest buf) : headChk true m = true :=
  scanGenAux_mem matchTestAt
    (fun s c r h => (matchDefAt_headChk true boundaryAnyEnd s c r h).1)
    buf.length buf m hm

theorem headChk_not_both (m : Text) (h1 : headChk false m = true)
    (h2 : headChk true m = true) : False := by
  simp only [headChk, Bool.and_eq_true, Bool.false_eq_true, eq_self_iff_true,
    if_true, if_false] at h1 h2
  have hcontra := h1.2.2
  rw [h2.2.2] at hcontra
  exact absurd hcontra (by decide)

theorem headChk_head_shape (b : Bool) (m : Text) (h : headChk b m = true) :
    ∃ t, m = 'd' :: 'e' :: 'f' :: t := by
  simp only [headChk, Bool.and_eq_true] at h
  have h1 := h.1
  rw [List.isPrefixOf_iff_prefix] at h1
  obtain ⟨t, ht⟩ := h1
  exact ⟨t, by rw [← ht]; rfl⟩

theorem stripChars_ne_nil (c : Char) (t : Text) (hc : isSpaceChar c = false) :
    stripChars (c :: t) ≠ [] := by
  unfold stripChars
  rw [List.dropWhile_cons, if_neg (by simp [hc])]
  intro hnil
  rw [List.reverse_eq_nil_iff, List.dropWhile_eq_nil_iff] at hnil
  have : isSpaceChar c = true := hnil c (by simp [List.mem_reverse])
  rw [hc] at this
  exact absurd this (by simp)

theorem joinSep_ne_nil (sep x : Text) (xs : List Text) (hx : x ≠ []) :
    joinSep sep (x :: xs) ≠ [] := by
  cases xs <;> simp [joinSep, hx]

/-! ### Lemmas about the web retry loop -/

def iterSt : IterOut → LoopSt
  | .exit _ st => st
  | .next st => st

/-- An iteration appends at most one prompt to the log. -/
theorem genIter_prompts (o sid : Text) (tr : Nat → Transport) (rn : Nat → RunnerOutcome)
    (attempt : Nat) (st : LoopSt) :
    ∃ e, (iterSt (genIter o sid tr rn attempt st)).prompts = st.prompts ++ e ∧
      e.length ≤ 1 := by
  unfold genIter
  split
  · exact ⟨[], by simp [iterSt], by simp⟩
  · rename_i p heq
    dsimp only
    split
    · split
      · exact ⟨[p], by simp [iterSt], by simp⟩
      · split
        · exact ⟨[p], by simp [iterSt], by simp⟩
        · exact ⟨[p], by simp [iterSt], by simp⟩
    · exact ⟨[p], by simp [iterSt], by simp⟩

/-- The first iteration always sends the enhanced initial prompt. -/
theorem genIter_zero_prompts (o sid : Text) (tr : Nat → Transport)
    (rn : Nat → RunnerOutcome) (st : LoopSt) :
    (iterSt (genIter o sid tr rn 0 st)).prompts = st.prompts ++ [fullPrompt o] := by
  unfold genIter
  rw [show iterPrompt o sid 0 st = .ok (fullPrompt o) from rfl]
  dsimp only
  split
  · split
    · simp [iterSt]
    · split
      · simp [iterSt]
      · simp [iterSt]
  · simp [iterSt]

/-- When it is the first attempt or `last_error` has been assigned, the
prompt construction cannot raise. -/
theorem iterPrompt_ok_of_inv (o sid : Text) (attempt : Nat) (st : LoopSt)
    (hinv : attempt = 0 ∨ st.lastError.isSome = true) :
    ∃ p, iterPrompt o sid attempt st = .ok p := by
  rcases hinv with rfl | hsome
  · exact ⟨fullPrompt o, rfl⟩
  · unfold iterPrompt
    by_cases h0 : attempt = 0
    · rw [if_pos h0]
      exact ⟨fullPrompt o, rfl⟩
    rw [if_neg h0]
    by_cases hex : fsExists st.fs (funcFileName sid) = true
    · rw [if_pos hex]
      rw [fsExists_eq_isSome] at hex
      rcases hrd : fsRead st.fs (funcFileName sid) with _ | prev
      · rw [hrd] at hex
        exact absurd hex (by simp)
      rcases hle : st.lastError with _ | le
      · rw [hle] at hsome
        exact absurd hsome (by simp)
      exact ⟨fixPrompt o le prev, rfl⟩
    · rw [if_neg hex]
      exact ⟨fullPrompt o, rfl⟩

/-- A cycle whose reply fails extraction: the cycle is recorded as a parse
failure, nothing is persisted, and `last_error` becomes the parse-failure
message. -/
theorem genIter_parsefail (o sid : Text) (tr : Nat → Transport) (rn : Nat → RunnerOutcome)
    (attempt : Nat) (st : LoopSt) (p : Text)
    (hok : iterPrompt o sid attempt st = .ok p)
    (hu : extractCode (replyOf p (tr st.prompts.length)) = none) :
    genIter o sid tr rn attempt st = .next
      { fs := st.fs, lastError := some parseFailMsg,
        attempts := st.attempts ++
          [{ attempt := attempt + 1, ai_response := replyOf p (tr st.prompts.length),
             success := false, func_code := [], test_code := [],
             test_output := [], error := parseFailAttemptMsg }],
        prompts := st.prompts ++ [p], runs := st.runs } := by
  unfold genIter
  rw [hok]
  dsimp only
  rw [show save_code_and_tests (replyOf p (tr st.prompts.length)) sid st.fs
      = (⟨false, [], []⟩, st.fs) from by rw [save_code_and_tests, hu]]
  simp

/-- With an available runner and the local-variable invariant, an iteration
either returns a success response with the session files already deleted,
or continues with `last_error` assigned. -/
theorem genIter_cases (o sid : Text) (tr : Nat → Transport) (rn : Nat → RunnerOutcome)
    (attempt : Nat) (st : LoopSt)
    (hinv : attempt = 0 ∨ st.lastError.isSome = true)
    (hrn : ∀ i, rn i ≠ .unavailable) :
    (∃ r st', genIter o sid tr rn attempt st = .exit (.ok r) st' ∧
      fsExists st'.fs (funcFileName sid) = false ∧
      fsExists st'.fs (testFileName sid) = false ∧ r.success = true) ∨
    (∃ st', genIter o sid tr rn attempt st = .next st' ∧
      st'.lastError.isSome = true) := by
  obtain ⟨p, hok⟩ := iterPrompt_ok_of_inv o sid attempt st hinv
  unfold genIter
  rw [hok]
  dsimp only
  split
  · split
    · rename_i hro
      exact absurd hro (hrn st.runs)
    · rename_i rc out err hro
      by_cases hrc : rc = 0
      · rw [if_pos hrc]
        refine .inl ⟨_, _, rfl, ?_, ?_, rfl⟩
        · exact (cleanup_removes_files sid _).1
        · exact (cleanup_removes_files sid _).2
      · rw [if_neg hrc]
        exact .inr ⟨_, rfl, rfl⟩
  · exact .inr ⟨_, rfl, rfl⟩

/-- The loop appends at most `rem` prompts. -/
theorem genLoop_prompts (o sid : Text) (tr : Nat → Transport) (rn : Nat → RunnerOutcome)
    (msg : Text) :
    ∀ rem attempt st, ∃ e,
      ((genLoop o sid tr rn msg attempt rem st).2).prompts = st.prompts ++ e ∧
        e.length ≤ rem := by
  intro rem
  induction rem with
  | zero =>
    intro attempt st
    exact ⟨[], by simp [genLoop], by simp⟩
  | succ n ih =>
    intro attempt st
    have hpr := genIter_prompts o sid tr rn attempt st
    rcases hgi : genIter o sid tr rn attempt st with ⟨res, st'⟩ | st' <;>
      rw [hgi] at hpr <;> simp only [iterSt] at hpr <;>
      obtain ⟨e1, he1, hl1⟩ := hpr
    · refine ⟨e1, ?_, le_trans hl1 (by omega)⟩
      simp only [genLoop, hgi]
      exact he1
    · obtain ⟨e2, he2, hl2⟩ := ih (attempt + 1) st'
      refine ⟨e1 ++ e2, ?_, ?_⟩
      · simp only [genLoop, hgi]
        rw [he2, he1, List.append_assoc]
      · rw [List.length_append]
        omega

/-- Starting from attempt 0, the first prompt recorded is the enhanced
initial prompt, whatever happens afterwards. -/
theorem genLoop_first_prompt (o sid : Text) (tr : Nat → Transport)
    (rn : Nat → RunnerOutcome) (msg : Text) (rem : Nat) (st : LoopSt)
    (hpr : st.prompts = []) :
    ((genLoop o sid tr rn msg 0 (rem + 1) st).2).prompts.head? =
      some (fullPrompt o) := by
  have hz := genIter_zero_prompts o sid tr rn st
  rcases hgi : genIter o sid tr rn 0 st with ⟨res, st'⟩ | st' <;>
    rw [hgi] at hz <;> simp only [iterSt] at hz
  · simp only [genLoop, hgi]
    rw [hz, hpr]
    simp
  · obtain ⟨e, he, _⟩ := genLoop_prompts o sid tr rn msg rem 1 st'
    simp only [genLoop, hgi]
    rw [he, hz, hpr]
    simp

/-- With every reply failing extraction, the loop records exactly one
parse-failure cycle per remaining attempt and ends exhausted. -/
theorem genLoop_parsefail (o sid : Text) (tr : Nat → Transport) (rn : Nat → RunnerOutcome)
    (msg : Text) (hu : ∀ i q, extractCode (replyOf q (tr i)) = none) :
    ∀ rem attempt st, (attempt = 0 ∨ st.lastError.isSome = true) →
      ∃ atts,
        (genLoop o sid tr rn msg attempt rem st).1 =
          .ok (exhaustResult (st.attempts ++ atts) msg) ∧
        atts.length = rem ∧
        ((genLoop o sid tr rn msg attempt rem st).2).prompts.length =
          st.prompts.length + rem ∧
        ((genLoop o sid tr rn msg attempt rem st).2).attempts = st.attempts ++ atts := by
  intro rem
  induction rem with
  | zero =>
    intro attempt st _
    exact ⟨[], by simp [genLoop, exhaustResult], rfl, rfl, by simp [genLoop]⟩
  | succ n ih =>
    intro attempt st hinv
    obtain ⟨p, hok⟩ := iterPrompt_ok_of_inv o sid attempt st hinv
    have hstep := genIter_parsefail o sid tr rn attempt st p hok (hu _ _)
    obtain ⟨atts, h1, h2, h3, h4⟩ := ih (attempt + 1)
      ⟨st.fs, some parseFailMsg,
        st.attempts ++ [⟨attempt + 1, replyOf p (tr st.prompts.length), false, [], [], [],
          parseFailAttemptMsg⟩],
        st.prompts ++ [p], st.runs⟩
      (.inr rfl)
    refine ⟨⟨attempt + 1, replyOf p (tr st.prompts.length), false, [], [], [],
      parseFailAttemptMsg⟩ :: atts, ?_, by simpa using h2, ?_, ?_⟩
    · simp only [genLoop, hstep]
      rw [h1]
      simp
    · simp only [genLoop, hstep]
      rw [h3]
      simp only [List.length_append, List.length_cons, List.length_nil]
      omega
    · simp only [genLoop, hstep]
      rw [h4]
      simp

/-- With an available runner, the loop always returns a structured result
and, on both the success and the exhausted exit, the session files are
gone. -/
theorem genLoop_total (o sid : Text) (tr : Nat → Transport) (rn : Nat → RunnerOutcome)
    (msg : Text) (hrn : ∀ i, rn i ≠ .unavailable) :
    ∀ rem attempt st, (attempt = 0 ∨ st.lastError.isSome = true) →
      ∃ r, (genLoop o sid tr rn msg attempt rem st).1 = .ok r ∧
        fsExists ((genLoop o sid tr rn msg attempt rem st).2).fs (funcFileName sid) = false ∧
        fsExists ((genLoop o sid tr rn msg attempt rem st).2).fs (testFileName sid) = false ∧
        (r.success = true ∨ r = exhaustResult ((genLoop o sid tr rn msg attempt rem st).2).attempts msg) := by
  intro rem
  induction rem with
  | zero =>
    intro attempt st _
    refine ⟨exhaustResult st.attempts msg, by simp [genLoop], ?_, ?_, ?_⟩
    · simpa [genLoop] using (cleanup_removes_files sid st.fs).1
    · simpa [genLoop] using (cleanup_removes_files sid st.fs).2
    · right
      simp [genLoop]
  | succ n ih =>
    intro attempt st hinv
    rcases genIter_cases o sid tr rn attempt st hinv hrn with
      ⟨r, st', hgi, hf, ht, hs⟩ | ⟨st', hgi, hle⟩
    · refine ⟨r, ?_, ?_, ?_, .inl hs⟩ <;> simp only [genLoop, hgi]
      · exact hf
      · exact ht
    · obtain ⟨r, h1, h2, h3, h4⟩ := ih (attempt + 1) st' (.inr hle)
      refine ⟨r, ?_, ?_, ?_, ?_⟩ <;> simp only [genLoop, hgi]
      · exact h1
      · exact h2
      · exact h3
      · exact h4

/-! ### Spec-side partition (for comparison with the extractor)

The following definitions follow the specification's words, not the code:
"Partitioning must correctly delimit each definition's body up to (but not
including) the next top-level definition of either kind, or end of buffer",
where "a new definition begins at column zero".  They exist only to compare
the code's behaviour against the spec's description. -/

def splitLinesAux : Text → Text → List Text
  | [], acc => [acc.reverse]
  | '\n' :: t, acc => acc.reverse :: splitLinesAux t []
  | c :: t, acc => splitLinesAux t (c :: acc)

def splitLines (s : Text) : List Text := splitLinesAux s []

/-- A line starting a top-level (column-zero) definition. -/
def specDefLine (line : Text) : Bool := "def ".toList.isPrefixOf line

/-- A top-level definition line whose name has the reserved `test_` prefix. -/
def specTestDefLine (line : Text) : Bool := "def test_".toList.isPrefixOf line

/-- Spec-side partition of a buffer: fragments start at column-zero `def`
lines and run to the next column-zero `def` line or end of buffer; the
`test_` name prefix selects the group.  Returns (implementation fragments,
test fragments). -/
def specPartitionAux : List Text → Option (Bool × Text) → List Text × List Text
  | [], none => ([], [])
  | [], some (isT, cur) => if isT then ([], [cur]) else ([cur], [])
  | l :: rest, none =>
    if specDefLine l then specPartitionAux rest (some (specTestDefLine l, l))
    else specPartitionAux rest none
  | l :: rest, some (isT, cur) =>
    if specDefLine l then
      let r := specPartitionAux rest (some (specTestDefLine l, l))
      if isT then (r.1, cur :: r.2) else (cur :: r.1, r.2)
    else specPartitionAux rest (some (isT, cur ++ nl ++ l))

def specPartition (buf : Text) : List Text × List Text :=
  specPartitionAux (splitLines buf) none

/-! ### The fix-up prompt literally contains its three ingredients -/

theorem fixPrompt_contains_orig (o e c : Text) : o <:+: fixPrompt o e c :=
  ⟨fixSegA, fixSegB ++ c ++ fixSegC ++ e ++ fixSegD, by simp [fixPrompt, List.append_assoc]⟩

theorem fixPrompt_contains_code (o e c : Text) : c <:+: fixPrompt o e c :=
  ⟨fixSegA ++ o ++ fixSegB, fixSegC ++ e ++ fixSegD, by simp [fixPrompt, List.append_assoc]⟩

theorem fixPrompt_contains_err (o e c : Text) : e <:+: fixPrompt o e c :=
  ⟨fixSegA ++ o ++ fixSegB ++ c ++ fixSegC, fixSegD, by simp [fixPrompt, List.append_assoc]⟩

/-- After a cycle that extracted `F` and failed its test run, the next
cycle's prompt is the fix-up prompt built from the original task, the
just-persisted implementation `F ++ "\n"`, and the just-produced runner
output. -/
theorem genIter_retry_prompt (o sid : Text) (tr : Nat → Transport)
    (rn : Nat → RunnerOutcome) (attempt : Nat) (st : LoopSt) (p F T : Text)
    (rc : Int) (out err : Text)
    (hok : iterPrompt o sid attempt st = .ok p)
    (hsv : extractCode (replyOf p (tr st.prompts.length)) = some (F, T))
    (hro : rn st.runs = .ran rc out err)
    (hrc : rc ≠ 0) :
    ∃ st', genIter o sid tr rn attempt st = .next st' ∧
      iterPrompt o sid (attempt + 1) st' =
        .ok (fixPrompt o (out ++ nl ++ err) (F ++ nl)) := by
  unfold genIter
  rw [hok]
  dsimp only
  rw [show save_code_and_tests (replyOf p (tr st.prompts.length)) sid st.fs
      = (⟨true, F, T⟩, persistArtifacts sid F T st.fs) from by
    rw [save_code_and_tests, hsv]]
  dsimp only
  rw [if_pos rfl, hro]
  dsimp only
  rw [if_neg hrc]
  refine ⟨_, rfl, ?_⟩
  unfold iterPrompt
  rw [if_neg (Nat.succ_ne_zero attempt)]
  dsimp only
  have hget : fsRead (persistArtifacts sid F T st.fs) (funcFileName sid) = some (F ++ nl) := by
    rw [persistArtifacts, fsRead_write_ne _ _ _ _ (funcFileName_ne_testFileName sid),
      fsRead_write_self]
  have hex : fsExists (persistArtifacts sid F T st.fs) (funcFileName sid) = true := by
    rw [fsExists_eq_isSome, hget]
    rfl
  rw [if_pos hex, hget]
  rw [if_neg hrc]

/-! ### Extraction characterization -/

theorem extractCode_none_iff (r : Text) :
    extractCode r = none ↔ codeBlocksOf r = [] ∨ scanFunc (combinedCodeOf r) = [] ∨
      scanTest (combinedCodeOf r) = [] := by
  unfold extractCode
  by_cases h1 : codeBlocksOf r = []
  · simp [h1, List.isEmpty_iff]
  · rw [if_neg (by simpa [List.isEmpty_iff] using h1)]
    dsimp only
    by_cases h2 : scanFunc (combinedCodeOf r) = []
    · simp [h2, h1, List.isEmpty_iff]
    · rw [if_neg (by simpa [List.isEmpty_iff] using h2)]
      by_cases h3 : scanTest (combinedCodeOf r) = []
      · simp [h3, h1, h2, List.isEmpty_iff]
      · rw [if_neg (by simpa [List.isEmpty_iff] using h3)]
        simp [h1, h2, h3]

theorem extractCode_some (r : Text) (h1 : codeBlocksOf r ≠ [])
    (h2 : scanFunc (combinedCodeOf r) ≠ []) (h3 : scanTest (combinedCodeOf r) ≠ []) :
    extractCode r = some (joinSep nl2 ((scanFunc (combinedCodeOf r)).map stripChars),
      joinSep nl2 ((scanTest (combinedCodeOf r)).map stripChars)) := by
  unfold extractCode
  rw [if_neg (by simpa [List.isEmpty_iff] using h1)]
  dsimp only
  rw [if_neg (by simpa [List.isEmpty_iff] using h2),
    if_neg (by simpa [List.isEmpty_iff] using h3)]

theorem joined_strip_ne_nil (b : Bool) (l : List Text) (hne : l ≠ [])
    (hall : ∀ m ∈ l, headChk b m = true) :
    joinSep nl2 (l.map stripChars) ≠ [] := by
  rcases l with _ | ⟨m, rest⟩
  · exact absurd rfl hne
  obtain ⟨t, ht⟩ := headChk_head_shape b m (hall m (by simp))
  have hs : stripChars m ≠ [] := by
    rw [ht]
    exact stripChars_ne_nil 'd' _ (by decide)
  simpa using joinSep_ne_nil nl2 (stripChars m) (rest.map stripChars) hs

/-! # Claim theorems -/

/-- A parseable model reply used in concrete scenarios below. -/
def goodReply : Text :=
  "```python\ndef implAAA(x):\n    return x\n\ndef test_implAAA():\n    assert implAAA(1) == 1\n```".toList

def implText : Text := "def implAAA(x):\n    return x".toList
def testText : Text := "def test_implAAA():\n    assert implAAA(1) == 1".toList

/-- C1: the web orchestrator makes at most 3 generation calls, the first
always with the enhanced task prompt verbatim; given a model client whose
reply never extracts, it makes exactly 3 calls and returns the failure
outcome with a cycle history of length 3. -/
theorem C1_retry_bound (o sid : Text) (tr : Nat → Transport) (rn : Nat → RunnerOutcome)
    (fs0 : Fs) (hp : o ≠ []) :
    ((generate o sid tr rn fs0).2).prompts.length ≤ 3 ∧
    ((generate o sid tr rn fs0).2).prompts.head? = some (fullPrompt o) ∧
    ((∀ i q, extractCode (replyOf q (tr i)) = none) →
      ((generate o sid tr rn fs0).2).prompts.length = 3 ∧
      ∃ g, (generate o sid tr rn fs0).1 = .ok (.page g) ∧ g.success = false ∧
        g.attempts.length = 3) := by
  unfold generate
  rw [if_neg hp]
  dsimp only
  refine ⟨?_, ?_, ?_⟩
  · obtain ⟨e, he, hl⟩ :=
      genLoop_prompts o sid tr rn exhaustedMsg 3 0 (initSt fs0)
    rw [he]
    simpa [initSt] using hl
  · exact genLoop_first_prompt o sid tr rn exhaustedMsg 2 (initSt fs0) rfl
  · intro hu
    obtain ⟨atts, h1, h2, h3, _⟩ :=
      genLoop_parsefail o sid tr rn exhaustedMsg hu 3 0 (initSt fs0) (.inl rfl)
    refine ⟨by rw [h3]; rfl, exhaustResult atts exhaustedMsg, ?_, rfl, ?_⟩
    · rw [h1]
      rfl
    · simpa [exhaustResult] using h2

/-- A model client always replying with unextractable text. -/
def hiClient : Nat → Transport := fun _ => .ok "hi".toList

/-- A runner that always reports success with empty output. -/
def passRunner : Nat → RunnerOutcome := fun _ => .ran 0 [] []

/-- A runner whose executable is missing. -/
def missingRunner : Nat → RunnerOutcome := fun _ => .unavailable

/-- A model client always replying with the parseable `goodReply`. -/
def goodClient : Nat → Transport := fun _ => .ok goodReply

/-- C1 witness: a concrete client always replying with unextractable text. -/
theorem C1_retry_bound_witness :
    ((generate "p".toList "s".toList hiClient passRunner []).2).prompts.length = 3 ∧
    ((generate "p".toList "s".toList hiClient passRunner []).2).prompts.head?
      = some (fullPrompt "p".toList) ∧
    ∃ g, (generate "p".toList "s".toList hiClient passRunner []).1 = .ok (.page g) ∧
      g.success = false ∧ g.attempts.length = 3 := by
  have h := C1_retry_bound "p".toList "s".toList hiClient passRunner [] (by decide)
  have h3 := h.2.2 (fun i q => rfl)
  exact ⟨h3.1, h.2.1, h3.2⟩

/-- C2: contrary to the claim, the orchestrator can raise past its own
boundary.  In `app.py`, a reply with no code block on the first attempt
makes the retry attempt raise `FileNotFoundError` on `open` (no persisted
file) or `UnboundLocalError` on `last_error` (stale file present); in
`web_app.py`, a missing test runner makes `subprocess.run` raise
`FileNotFoundError` out of `generate`. -/
theorem C2_orchestrator_raises :
    (run_with_retry "p".toList (fullPrompt "p".toList) hiClient passRunner
        0 3 ⟨[], none, 0, 0⟩).1 = .error .fileNotFound ∧
    (run_with_retry "p".toList (fullPrompt "p".toList) hiClient passRunner
        0 3 ⟨[(appFuncFile, "x".toList)], none, 0, 0⟩).1 = .error .unboundLocal ∧
    (generate "p".toList "s".toList goodClient missingRunner []).1
      = .error .fileNotFound := by
  refine ⟨?_, ?_, ?_⟩ <;> rfl

/-- C3 (amended): extraction fails exactly when the code finds no block, or
its definition pattern finds no non-test definition, or no test definition;
whenever blocks exist and both patterns match, extraction succeeds and both
returned groups are non-empty text. -/
theorem C3_extraction_conditions (r sid : Text) (fs : Fs) :
    ((save_code_and_tests r sid fs).1.ok = false ↔
      codeBlocksOf r = [] ∨ scanFunc (combinedCodeOf r) = [] ∨
        scanTest (combinedCodeOf r) = []) ∧
    (codeBlocksOf r ≠ [] → scanFunc (combinedCodeOf r) ≠ [] →
      scanTest (combinedCodeOf r) ≠ [] →
      (save_code_and_tests r sid fs).1.ok = true ∧
      (save_code_and_tests r sid fs).1.func_code ≠ [] ∧
      (save_code_and_tests r sid fs).1.test_code ≠ []) := by
  constructor
  · rw [← extractCode_none_iff]
    unfold save_code_and_tests
    rcases hec : extractCode r with _ | ⟨f, t⟩ <;> simp [hec]
  · intro h1 h2 h3
    unfold save_code_and_tests
    rw [extractCode_some r h1 h2 h3]
    refine ⟨rfl, ?_, ?_⟩
    · exact joined_strip_ne_nil false _ h2 (fun m hm => scanFunc_headChk _ m hm)
    · exact joined_strip_ne_nil true _ h3 (fun m hm => scanTest_headChk _ m hm)

/-- C3 witness: a reply with one fenced block holding an implementation and
a test. -/
theorem C3_extraction_conditions_witness :
    (save_code_and_tests goodReply "s".toList []).1.ok = true ∧
    (save_code_and_tests goodReply "s".toList []).1.func_code ≠ [] ∧
    (save_code_and_tests goodReply "s".toList []).1.test_code ≠ [] :=
  (C3_extraction_conditions goodReply "s".toList []).2 (by decide) (by decide) (by decide)

/-- C3 counterexample: a reply whose single fenced block contains one
non-test and one test definition (both visible as column-zero definitions),
yet extraction fails, because `[^)]*` in the patterns cannot cross the `)`
of a parenthesised default argument. -/
def parenReply : Text :=
  "```python\ndef f(x=(1,2)):\n    return x\n\ndef test_f(y=(3,4)):\n    assert True\n```".toList

theorem C3_extraction_claim_counterexample :
    codeBlocksOf parenReply ≠ [] ∧
    (splitLines (combinedCodeOf parenReply)).any
      (fun l => specDefLine l && !(specTestDefLine l)) = true ∧
    (splitLines (combinedCodeOf parenReply)).any specTestDefLine = true ∧
    (save_code_and_tests parenReply "s".toList []).1.ok = false := by
  refine ⟨by decide, by decide, by decide, by decide⟩

/-- C4 (amended): the extractor separates fragments into two disjoint
groups by the `test_` name prefix — every implementation fragment starts
with a `def`-token head with a non-`test_` name and every test fragment
with a `test_` name, and no fragment is in both groups.  Delimitation,
however, is by the next `def` token found anywhere (an implementation
fragment runs to the next `def  test_` token or end of buffer, a test
fragment to the next `def` token of any kind), not by column-zero
boundaries. -/
theorem C4_partition_groups (buf : Text) :
    (∀ m ∈ scanFunc buf, headChk false m = true) ∧
    (∀ m ∈ scanTest buf, headChk true m = true) ∧
    (∀ m, m ∈ scanFunc buf → m ∈ scanTest buf → False) :=
  ⟨fun m hm => scanFunc_headChk buf m hm,
   fun m hm => scanTest_headChk buf m hm,
   fun m hf ht => headChk_not_both m (scanFunc_headChk buf m hf) (scanTest_headChk buf m ht)⟩

/-- C4 witness: a two-definition buffer, with one fragment in each group. -/
theorem C4_partition_groups_witness :
    headChk false "def f():\n    return 1\n\n".toList = true ∧
    headChk true "def test_f():\n    assert f() == 1".toList = true :=
  ⟨(C4_partition_groups "def f():\n    return 1\n\ndef test_f():\n    assert f() == 1".toList).1
      _ (by decide),
   (C4_partition_groups "def f():\n    return 1\n\ndef test_f():\n    assert f() == 1".toList).2.1
      _ (by decide)⟩

/-- C4 counterexample: on a buffer with an indented nested `def` inside a
test function, the extractor's groups differ from the spec's column-zero
partition: the nested `def helper` truncates the test fragment and is
itself turned into the start of the implementation fragment. -/
def nestedBuf : Text :=
  "def test_a():\n    def helper():\n        pass\n\ndef impl(x):\n    return x".toList

theorem C4_partition_claim_counterexample :
    scanFunc nestedBuf ≠ (specPartition nestedBuf).1 ∧
    scanTest nestedBuf ≠ (specPartition nestedBuf).2 ∧
    scanTest nestedBuf = ["def test_a():\n    ".toList] ∧
    scanFunc nestedBuf = ["def helper():\n        pass\n\ndef impl(x):\n    return x".toList] ∧
    (specPartition nestedBuf).1 = ["def impl(x):\n    return x".toList] ∧
    (specPartition nestedBuf).2 = ["def test_a():\n    def helper():\n        pass\n".toList] := by
  refine ⟨by decide, by decide, by decide, by decide, by decide, by decide⟩

/-- C5 (amended): the test executor passes `--maxfail=1` (stop on first
failure), reports pass exactly when the exit status is 0, and never raises
once the runner ran; but the returned blob is stdout alone on pass and
stdout + newline + stderr on failure (the CLI variant returns no text on
pass and stderr alone on failure). -/
theorem C5_run_tests_behavior (sid out err : Text) (rc : Int) :
    "--maxfail=1".toList ∈ (run_tests sid (.ran rc out err)).1 ∧
    (∃ b o, (run_tests sid (.ran rc out err)).2 = .ok (b, o) ∧
      (b = true ↔ rc = 0) ∧ o = (if rc = 0 then out else out ++ nl ++ err)) ∧
    app_run_tests (.ran rc out err) =
      .ok (if rc = 0 then (true, none) else (false, some err)) := by
  refine ⟨by simp [run_tests, pytestCmd], ?_, ?_⟩
  · by_cases hrc : rc = 0
    · exact ⟨true, out, by simp [run_tests, hrc], by simp [hrc], by simp [hrc]⟩
    · exact ⟨false, out ++ nl ++ err, by simp [run_tests, hrc], by simp [hrc], by simp [hrc]⟩
  · by_cases hrc : rc = 0 <;> simp [app_run_tests, hrc]

/-- C5 witness: concrete failing run. -/
theorem C5_run_tests_behavior_witness :
    "--maxfail=1".toList ∈ (run_tests "s".toList (.ran 1 "o".toList "e".toList)).1 ∧
    (∃ b o, (run_tests "s".toList (.ran 1 "o".toList "e".toList)).2 = .ok (b, o) ∧
      (b = true ↔ (1 : Int) = 0) ∧
      o = (if (1 : Int) = 0 then "o".toList else "o".toList ++ nl ++ "e".toList)) ∧
    app_run_tests (.ran 1 "o".toList "e".toList) =
      .ok (if (1 : Int) = 0 then (true, none) else (false, some "e".toList)) :=
  C5_run_tests_behavior "s".toList "o".toList "e".toList 1

/-- C5 counterexample: a passing run with non-empty stderr returns stdout
alone, not the combined stdout-plus-stderr blob the claim describes. -/
theorem C5_combined_output_counterexample :
    (run_tests "s".toList (.ran 0 "ok".toList "warn".toList)).2 = .ok (true, "ok".toList) ∧
    ¬("warn".toList <:+: "ok".toList) ∧
    "ok".toList ≠ "ok".toList ++ "\n".toList ++ "warn".toList ∧
    app_run_tests (.ran 0 "ok".toList "warn".toList) = .ok (true, none) := by
  refine ⟨rfl, by decide, by decide, rfl⟩

/-- C6 (amended): whenever a cycle extracts an implementation and its test
run fails, the next cycle's prompt is exactly the fix-up prompt built from
the original task description, that cycle's persisted implementation text
(`F ++ "\n"`) and that cycle's runner output, each contained literally.
After a parse-failure cycle, however, the persisted implementation of an
earlier cycle is reused (see the counterexample). -/
theorem C6_retry_prompt (o sid : Text) (tr : Nat → Transport) (rn : Nat → RunnerOutcome)
    (attempt : Nat) (st : LoopSt) (p F T : Text) (rc : Int) (out err : Text)
    (hok : iterPrompt o sid attempt st = .ok p)
    (hsv : extractCode (replyOf p (tr st.prompts.length)) = some (F, T))
    (hro : rn st.runs = .ran rc out err)
    (hrc : rc ≠ 0) :
    ∃ st', genIter o sid tr rn attempt st = .next st' ∧
      iterPrompt o sid (attempt + 1) st' =
        .ok (fixPrompt o (out ++ nl ++ err) (F ++ nl)) ∧
      o <:+: fixPrompt o (out ++ nl ++ err) (F ++ nl) ∧
      (out ++ nl ++ err) <:+: fixPrompt o (out ++ nl ++ err) (F ++ nl) ∧
      (F ++ nl) <:+: fixPrompt o (out ++ nl ++ err) (F ++ nl) := by
  obtain ⟨st', h1, h2⟩ :=
    genIter_retry_prompt o sid tr rn attempt st p F T rc out err hok hsv hro hrc
  exact ⟨st', h1, h2, fixPrompt_contains_orig _ _ _, fixPrompt_contains_err _ _ _,
    fixPrompt_contains_code _ _ _⟩

/-- A test runner that fails the first run with output `boom`. -/
def boomRunner : Nat → RunnerOutcome := fun _ => .ran 1 "boom".toList []

/-- C6 witness: first cycle parses `goodReply` and fails its test run; the
second cycle's prompt is the fix-up prompt carrying the implementation and
the failure text. -/
theorem C6_retry_prompt_witness :
    ∃ st', genIter "task".toList "s".toList goodClient boomRunner 0 (initSt []) = .next st' ∧
      iterPrompt "task".toList "s".toList 1 st' =
        .ok (fixPrompt "task".toList ("boom".toList ++ nl ++ []) (implText ++ nl)) ∧
      "task".toList <:+: fixPrompt "task".toList ("boom".toList ++ nl ++ []) (implText ++ nl) ∧
      ("boom".toList ++ nl ++ []) <:+:
        fixPrompt "task".toList ("boom".toList ++ nl ++ []) (implText ++ nl) ∧
      (implText ++ nl) <:+:
        fixPrompt "task".toList ("boom".toList ++ nl ++ []) (implText ++ nl) :=
  C6_retry_prompt "task".toList "s".toList goodClient boomRunner 0 (initSt [])
    (fullPrompt "task".toList) implText testText 1 "boom".toList [] rfl rfl rfl (by decide)

/-- The three-cycle scenario refuting C6 as stated: cycle 1 parses and
fails its tests, cycle 2 fails to parse, so cycle 3's prompt is built from
cycle 1's implementation — context from a cycle earlier than the
immediately preceding one. -/
def scenarioClient : Nat → Transport :=
  fun i => .ok (if i = 0 then goodReply else if i = 1 then "garbage".toList else "x".toList)

theorem C6_claim_counterexample :
    ((genLoop "task".toList "s".toList scenarioClient boomRunner exhaustedMsg 0 3
        (initSt [])).2).prompts.getD 2 [] =
      fixPrompt "task".toList parseFailMsg (implText ++ nl) ∧
    implText <:+:
      ((genLoop "task".toList "s".toList scenarioClient boomRunner exhaustedMsg 0 3
        (initSt [])).2).prompts.getD 2 [] ∧
    (((genLoop "task".toList "s".toList scenarioClient boomRunner exhaustedMsg 0 3
        (initSt [])).2).attempts.getD 1 ⟨0, [], false, [], [], [], []⟩).func_code = [] ∧
    (((genLoop "task".toList "s".toList scenarioClient boomRunner exhaustedMsg 0 3
        (initSt [])).2).attempts.getD 1 ⟨0, [], false, [], [], [], []⟩).error
      = parseFailAttemptMsg ∧
    (((genLoop "task".toList "s".toList scenarioClient boomRunner exhaustedMsg 0 3
        (initSt [])).2).attempts.getD 0 ⟨0, [], false, [], [], [], []⟩).func_code = implText ∧
    implText ≠ [] := by
  refine ⟨rfl, ?_, rfl, rfl, rfl, by decide⟩
  rw [show ((genLoop "task".toList "s".toList scenarioClient boomRunner exhaustedMsg 0 3
      (initSt [])).2).prompts.getD 2 [] =
      fixPrompt "task".toList parseFailMsg (implText ++ nl) from rfl]
  exact (List.prefix_append implText nl).isInfix.trans
    (fixPrompt_contains_code "task".toList parseFailMsg (implText ++ nl))

/-- C7: whenever the web orchestrator returns (success or exhausted — the
runner being invocable), neither session file exists in the final
filesystem state: cleanup runs unconditionally on both exit paths. -/
theorem C7_cleanup (o sid : Text) (tr : Nat → Transport) (rn : Nat → RunnerOutcome)
    (fs0 : Fs) (hp : o ≠ []) (hrn : ∀ i, rn i ≠ .unavailable) :
    ∃ w, (generate o sid tr rn fs0).1 = .ok (.page w) ∧
      fsExists ((generate o sid tr rn fs0).2).fs (funcFileName sid) = false ∧
      fsExists ((generate o sid tr rn fs0).2).fs (testFileName sid) = false := by
  unfold generate
  rw [if_neg hp]
  dsimp only
  obtain ⟨r, h1, h2, h3, _⟩ :=
    genLoop_total o sid tr rn exhaustedMsg hrn 3 0 (initSt fs0) (.inl rfl)
  exact ⟨r, by rw [h1]; rfl, h2, h3⟩

/-- C7 witness: a concrete successful request starting from a filesystem
already holding a stale session file. -/
theorem C7_cleanup_witness :
    ∃ w, (generate "p".toList "s".toList goodClient passRunner
        [(funcFileName "s".toList, "stale".toList)]).1 = .ok (.page w) ∧
      fsExists ((generate "p".toList "s".toList goodClient passRunner
        [(funcFileName "s".toList, "stale".toList)]).2).fs (funcFileName "s".toList) = false ∧
      fsExists ((generate "p".toList "s".toList goodClient passRunner
        [(funcFileName "s".toList, "stale".toList)]).2).fs (testFileName "s".toList) = false :=
  C7_cleanup "p".toList "s".toList goodClient passRunner
    [(funcFileName "s".toList, "stale".toList)] (by decide)
    (fun _ h => RunnerOutcome.noConfusion h)

/-- C8 (amended): persisting is idempotent and overwriting — for any prior
filesystem the implementation file afterwards holds exactly the
implementation text plus one trailing newline (so not byte-for-byte
verbatim), the test file holds the pytest import and the session-scoped
wildcard import followed by the test text plus a newline, and persisting a
second time leaves both files byte-identical. -/
theorem C8_persist_idempotent_overwrite (sid f t : Text) (fs : Fs) :
    fsRead (persistArtifacts sid f t fs) (funcFileName sid) = some (f ++ nl) ∧
    fsRead (persistArtifacts sid f t fs) (testFileName sid)
      = some (testHeader sid ++ t ++ nl) ∧
    fsRead (persistArtifacts sid f t (persistArtifacts sid f t fs)) (funcFileName sid)
      = fsRead (persistArtifacts sid f t fs) (funcFileName sid) ∧
    fsRead (persistArtifacts sid f t (persistArtifacts sid f t fs)) (testFileName sid)
      = fsRead (persistArtifacts sid f t fs) (testFileName sid) := by
  have hrf : ∀ g : Fs, fsRead (persistArtifacts sid f t g) (funcFileName sid)
      = some (f ++ nl) := by
    intro g
    rw [persistArtifacts, fsRead_write_ne _ _ _ _ (funcFileName_ne_testFileName sid),
      fsRead_write_self]
  have hrt : ∀ g : Fs, fsRead (persistArtifacts sid f t g) (testFileName sid)
      = some (testHeader sid ++ t ++ nl) := by
    intro g
    rw [persistArtifacts, fsRead_write_self]
  exact ⟨hrf fs, hrt fs, by rw [hrf, hrf], by rw [hrt, hrt]⟩

/-- C8 counterexample: the implementation file is not byte-for-byte the
implementation text — a newline is appended. -/
theorem C8_verbatim_counterexample :
    fsRead (persistArtifacts "s".toList "x".toList "y".toList [])
      (funcFileName "s".toList) = some ("x\n".toList) ∧
    "x\n".toList ≠ "x".toList := by
  exact ⟨rfl, by decide⟩

/-- C9: the model client never throws — every transport outcome yields a
textual reply; a transport or endpoint failure yields the error text
beginning with the fixed error message, so every cycle has text to parse. -/
theorem C9_client_never_throws (p m d r : Text) :
    (generate_task p m () (.exc d)).2 = connectErrHead ++ d ∧
    "Error: Unable to connect".toList <+: (generate_task p m () (.exc d)).2 ∧
    (generate_task p m () (.ok r)).2 = r := by
  refine ⟨rfl, ?_, rfl⟩
  rw [show (generate_task p m () (.exc d)).2 = connectErrHead ++ d from rfl]
  rw [show connectErrHead = "Error: Unable to connect".toList ++
    " to the model server or generate a response.\nDetails: ".toList from by decide]
  exact ⟨" to the model server or generate a response.\nDetails: ".toList ++ d, by simp⟩

/-- C10: the temperature parameter is accepted but never forwarded — the
request payload and the whole observable behaviour of `generate_task` are
identical for any two temperatures (of any type). -/
theorem C10_temperature_never_forwarded {α β : Type} (p m : Text) (t1 : α) (t2 : β)
    (tr : Transport) :
    generate_task p m t1 tr = generate_task p m t2 tr ∧
    (generate_task p m t1 tr).1 = requestPayload p m ∧
    requestPayload p m = { model := m, prompt := p, stream := false } :=
  ⟨rfl, rfl, rfl⟩
